import Mathlib

/-!
Verification development for the BLAS aggregator of the albedo repository
(crates/albedo_rtx/src/blas.rs).

The Rust source is shallowly embedded: slices become lists, `f32` scalars are
modelled as exact rationals (`Rat`), `u32`/`u8` arithmetic is `Nat` with an
explicit modulus where the source can wrap, and Rust panics are modelled by the
`RunResult.panicked` constructor carrying the aggregator state at the moment of
the panic.  The third-party hierarchy builder (the `obvhs` crate called through
`build_cwbvh_from_tris`) is modelled as an opaque parameter of type `Builder`:
the encoder and aggregator code of the repository is translated verbatim, while
the builder's output (nodes plus a permutation of triangle indices) is
universally quantified, with the contract of spec section 4.3 taken as an
explicit hypothesis where a claim needs it.
-/

namespace Albedo

/-- `u32` modulus: `usize`-to-`u32` casts (`len() as u32`) and `u32`
multiplication in the source wrap modulo this constant. -/
def U32 : Nat := 4294967296

abbrev Vec2 := Rat × Rat
abbrev Vec3 := Rat × Rat × Rat
abbrev Vec4 := Rat × Rat × Rat × Rat

/-- glam 4x4 matrix, in exact arithmetic. -/
abbrev Mat4 := Matrix (Fin 4) (Fin 4) Rat

def z2 : Vec2 := (0, 0)

def z3 : Vec3 := (0, 0, 0)

def z4 : Vec4 := (0, 0, 0, 0)

/-- Model of `glam::Mat4::inverse` (external crate): the true inverse for an
invertible matrix, computed as adjugate over determinant.  For a singular
matrix `f32` glam produces undefined/NaN entries; in this exact model the
division by the zero determinant collapses to the zero matrix, which plays the
role of the undefined value. -/
def mat4_inverse (m : Mat4) : Mat4 := m.det⁻¹ • m.adjugate

/-- obvhs triangle (three 3D corners). -/
structure Triangle where
  v0 : Vec3
  v1 : Vec3
  v2 : Vec3
deriving DecidableEq

def trivialTriangle : Triangle := ⟨(0, 0, 0), (0, 0, 0), (0, 0, 0)⟩

/-- Node produced by the external cwbvh builder (obvhs `CwBvhNode`): base
corner `p`, per-axis `u8` exponents `e0`/`e1`/`e2`, internal-child mask, child
and primitive base indices, and the per-child quantized extent bytes, which the
encoder copies verbatim. -/
structure CwBvhNode where
  p : Vec3
  e0 : Nat
  e1 : Nat
  e2 : Nat
  imask : Nat
  child_base_idx : Nat
  primitive_base_idx : Nat
  child_meta : List Nat
  child_min_x : List Nat
  child_min_y : List Nat
  child_min_z : List Nat
  child_max_x : List Nat
  child_max_y : List Nat
  child_max_z : List Nat
deriving DecidableEq

def dCwNode : CwBvhNode := ⟨(0, 0, 0), 0, 0, 0, 0, 0, 0, [], [], [], [], [], [], []⟩

/-- Output of `obvhs::cwbvh::builder::build_cwbvh_from_tris`: the node tree and
the builder's permutation of triangle indices. -/
structure CwBvh where
  nodes : List CwBvhNode
  primitive_indices : List Nat
deriving DecidableEq

/-- The pluggable hierarchy construction algorithm (external crate), §4.3. -/
abbrev Builder := List Triangle → CwBvh

/-- GPU node written by the encoder (`uniforms::BVHNode`; field names and the
copied fields are visible in the construction in blas.rs lines 148-167). -/
structure BVHNode where
  min : Vec3
  exyz : Nat × Nat × Nat
  imask : Nat
  child_base_idx : Nat
  primitive_base_idx : Nat
  child_meta : List Nat
  qlo_x : List Nat
  qlo_y : List Nat
  qlo_z : List Nat
  qhi_x : List Nat
  qhi_y : List Nat
  qhi_z : List Nat
deriving DecidableEq

def dBVHNode : BVHNode := ⟨(0, 0, 0), (0, 0, 0), 0, 0, 0, [], [], [], [], [], [], []⟩

/-- Ray-intersection primitive (tinybvh `Primitive`, blas.rs lines 175-182). -/
structure BVHPrimitive where
  edge_1 : Vec3
  padding_0 : Nat
  edge_2 : Vec3
  padding_1 : Nat
  vertex_0 : Vec3
  original_primitive : Nat
deriving DecidableEq

def dPrim : BVHPrimitive := ⟨(0, 0, 0), 0, (0, 0, 0), 0, (0, 0, 0), 0⟩

/-- Modelled from the spec: `uniforms::Vertex` (the `uniforms` module of this
crate is not under src/).  Spec §3/§6: packed record of `position : f32x4` and
`normal : f32x4`, with `Default` producing zeroed components ("otherwise those
components are zero"). -/
structure Vertex where
  position : Vec4
  normal : Vec4
deriving DecidableEq

/-- `Vertex::default()`: zeroed vertex (spec-modelled, see `Vertex`). -/
def Vertex.zeroed : Vertex := ⟨(0, 0, 0, 0), (0, 0, 0, 0)⟩

/-- Modelled from the spec plus the field usage in blas.rs lines 281-288:
`uniforms::Instance` (module not under src/), §3/§6 of the spec. -/
structure Instance where
  model_to_world : Mat4
  world_to_model : Mat4
  material_index : Nat
  bvh_root_index : Nat
  vertex_root_index : Nat
  bvh_primitive_index : Nat
deriving DecidableEq

/-- blas.rs `MeshDescriptor`: positions (xyzw), optional normals, optional
texcoords.  `pas::Slice` views become lists. -/
structure MeshDescriptor where
  positions : List Vec4
  normals : Option (List Vec3)
  texcoords0 : Option (List Vec2)
deriving DecidableEq

/-- blas.rs `IndexedMeshDescriptor`. -/
structure IndexedMeshDescriptor where
  mesh : MeshDescriptor
  indices : List Nat
deriving DecidableEq

/-- blas.rs `BLASEntryDescriptor`: node/primitive/vertex offsets of one entry,
stored as `u32` (the source casts `len() as u32`). -/
structure BLASEntryDescriptor where
  node : Nat
  primitive : Nat
  vertex : Nat
deriving DecidableEq

def dEntry : BLASEntryDescriptor := ⟨0, 0, 0⟩

/-- blas.rs `BLASArray`: the aggregator root owning the five arrays. -/
structure BLASArray where
  entries : List BLASEntryDescriptor
  nodes : List BVHNode
  primitives : List BVHPrimitive
  vertices : List Vertex
  instances : List Instance
deriving DecidableEq

def emptyBLAS : BLASArray := ⟨[], [], [], [], []⟩

/-- Result of running one aggregator operation: normal return, or a Rust panic
(`unwrap` on `None`, or a slice access out of bounds) carrying the state the
aggregator had at the moment of the panic. -/
inductive RunResult where
  | ok (s : BLASArray)
  | panicked (s : BLASArray)
deriving DecidableEq

def RunResult.state : RunResult → BLASArray
  | .ok s => s
  | .panicked s => s

def RunResult.isOk : RunResult → Bool
  | .ok _ => true
  | .panicked _ => false

/-- Drop the w component of an xyzw position (blas.rs builds `Vec3A::new(v[0],
v[1], v[2])`). -/
def vec3of (p : Vec4) : Vec3 := (p.1, p.2.1, p.2.2.1)

/-- Triangle extraction inside `test` (blas.rs lines 126-138): `count =
positions.len() / 3` (integer division), triangle `i` takes positions `3i`,
`3i+1`, `3i+2`. -/
def extractTriangles (positions : List Vec4) : List Triangle :=
  (List.range (positions.length / 3)).map fun i =>
    { v0 := vec3of (positions.getD (i * 3) (0, 0, 0, 0))
      v1 := vec3of (positions.getD (i * 3 + 1) (0, 0, 0, 0))
      v2 := vec3of (positions.getD (i * 3 + 2) (0, 0, 0, 0)) }

/-- Node encoding loop of `test` (blas.rs lines 147-168): exponents get
`wrapping_sub(127)` on `u8` (that is, `+129 mod 256`), child base is copied
verbatim, primitive base is multiplied by 3 ("Diff between tinybvh & obvh"),
and the quantized extent bytes are copied. -/
def encodeNode (node : CwBvhNode) : BVHNode :=
  { min := node.p
    exyz := ((node.e0 + 129) % 256, (node.e1 + 129) % 256, (node.e2 + 129) % 256)
    imask := node.imask
    child_base_idx := node.child_base_idx
    primitive_base_idx := node.primitive_base_idx * 3 % U32
    child_meta := node.child_meta
    qlo_x := node.child_min_x
    qlo_y := node.child_min_y
    qlo_z := node.child_min_z
    qhi_x := node.child_max_x
    qhi_y := node.child_max_y
    qhi_z := node.child_max_z }

/-- Primitive encoding loop of `test` (blas.rs lines 170-183): for each builder
permutation index, `edge_1 = v1 - v0`, `edge_2 = v2 - v0`, `vertex_0 = v0`, and
the pre-permutation index is recorded. -/
def encodePrimitives (tris : List Triangle) (idxs : List Nat) : List BVHPrimitive :=
  idxs.map fun index =>
    let tri := tris.getD index trivialTriangle
    { edge_1 := tri.v1 - tri.v0
      padding_0 := 0
      edge_2 := tri.v2 - tri.v0
      padding_1 := 0
      vertex_0 := tri.v0
      original_primitive := index }

/-- blas.rs `test` (lines 125-186): extract triangles, run the builder, encode
nodes and primitives. -/
def test (builder : Builder) (positions : List Vec4) : List BVHNode × List BVHPrimitive :=
  let tris := extractTriangles positions
  let bvh := builder tris
  (bvh.nodes.map encodeNode, encodePrimitives tris bvh.primitive_indices)

/-- Normal write of the unindexed/indexed loops: `vertices[i].normal =
[normal[0], normal[1], normal[2], 0.0]`. -/
def setNormal3 (v : Vertex) (n : Vec3) : Vertex :=
  { v with normal := (n.1, n.2.1, n.2.2, 0) }

/-- Texcoord write: `vertices[i].position[3] = uv[0]; vertices[i].normal[3] =
uv[1]`. -/
def setUV (v : Vertex) (uv : Vec2) : Vertex :=
  { v with
    position := (v.position.1, v.position.2.1, v.position.2.2.1, uv.1)
    normal := (v.normal.1, v.normal.2.1, v.normal.2.2.1, uv.2) }

/-- Indexed position write: `vertices[i].position = *position` (the whole xyzw
value is copied, including the w component). -/
def setPos4 (v : Vertex) (p : Vec4) : Vertex := { v with position := p }

/-- Unindexed attribute loop `for i in 0..xs.len() { vertices[i] = g(vertices[i],
xs[i]) }` over a slice of length `verts.length`: writes land for
`i < min verts.length xs.length`; when `xs` is longer than the slice the source
panics at `i = verts.length`, after all slots of the slice were written, which
is exactly the list this function returns in that case. -/
def writeAll (g : Vertex → α → Vertex) (verts : List Vertex) (xs : List α) : List Vertex :=
  List.zipWith g verts xs ++ verts.drop xs.length

/-- Panic flag of the normals loop in `add_bvh` (source indexes
`vertices[i]` for `i < normals.len()` on a slice of `positions.len()` slots). -/
def normalsLen (mesh : MeshDescriptor) : Nat :=
  match mesh.normals with
  | none => 0
  | some ns => ns.length

def texcoordsLen (mesh : MeshDescriptor) : Nat :=
  match mesh.texcoords0 with
  | none => 0
  | some ts => ts.length

/-- Position loop of `add_bvh` (blas.rs lines 207-210): every slot of the
freshly resized run gets `position = [pos.xyz, 0.0]` over the zeroed default. -/
def baseVerts (positions : List Vec4) : List Vertex :=
  positions.map fun p => { Vertex.zeroed with position := (p.1, p.2.1, p.2.2.1, 0) }

/-- Optional normals loop of `add_bvh` (blas.rs lines 211-216). -/
def normPass (verts : List Vertex) : Option (List Vec3) → List Vertex
  | none => verts
  | some ns => writeAll setNormal3 verts ns

/-- Optional texcoord loop of `add_bvh` (blas.rs lines 217-223). -/
def uvPass (verts : List Vertex) : Option (List Vec2) → List Vertex
  | none => verts
  | some ts => writeAll setUV verts ts

/-- Vertex-run construction of `add_bvh` (blas.rs lines 202-223): resize with
defaults, write positions with zeroed w, then the optional normals loop, then
the optional texcoord loop; the boolean records whether an out-of-bounds write
panicked the call (the returned list is then the slice contents at the panic:
the later loops have not run). -/
def fillVertexRun (mesh : MeshDescriptor) : Bool × List Vertex :=
  let v1 := normPass (baseVerts mesh.positions) mesh.normals
  if mesh.positions.length < normalsLen mesh then (true, v1)
  else
    let v2 := uvPass v1 mesh.texcoords0
    if mesh.positions.length < texcoordsLen mesh then (true, v2) else (false, v2)

/-- Entry pushed at the top of `add_bvh`/`add_bvh_indexed` (blas.rs lines
196-200, 236-240): the current array lengths, cast to `u32`. -/
def mkEntry (s : BLASArray) : BLASEntryDescriptor :=
  { node := s.nodes.length % U32
    primitive := s.primitives.length % U32
    vertex := s.vertices.length % U32 }

/-- blas.rs `BLASArray::add_bvh` (lines 195-233): push the entry, append the
vertex run (possibly panicking mid-way on an oversized attribute array), then
build and append nodes and primitives.  The function has no error return. -/
def add_bvh (builder : Builder) (s : BLASArray) (mesh : MeshDescriptor) : RunResult :=
  let entry := mkEntry s
  let fr := fillVertexRun mesh
  if fr.1 then
    .panicked { s with entries := s.entries ++ [entry], vertices := s.vertices ++ fr.2 }
  else
    .ok { s with
          entries := s.entries ++ [entry]
          vertices := s.vertices ++ fr.2
          nodes := s.nodes ++ (test builder mesh.positions).1
          primitives := s.primitives ++ (test builder mesh.positions).2 }

/-- One indexed attribute loop `for (i, index) in indices.enumerate() {
vertices[i] = g(vertices[i], src[*index]) }`: processed front to back, an
out-of-range `*index` panics leaving the earlier writes applied and the rest of
the slice untouched. -/
def indexedWrites (g : Vertex → α → Vertex) (src : List α) (d : α) :
    List Vertex → List Nat → Bool × List Vertex
  | v :: vs, ix :: ixs =>
    if ix < src.length then
      let r := indexedWrites g src d vs ixs
      (r.1, g v (src.getD ix d) :: r.2)
    else (true, v :: vs)
  | vs, [] => (false, vs)
  | [], _ :: _ => (true, [])

/-- Indexed position loop of `add_bvh_indexed` (blas.rs lines 248-251): whole
`[f32;4]` positions are copied through the index array onto the resized run. -/
def posPassIndexed (desc : IndexedMeshDescriptor) : Bool × List Vertex :=
  indexedWrites setPos4 desc.mesh.positions z4
    (List.replicate desc.indices.length Vertex.zeroed) desc.indices

/-- Optional indexed normals loop (blas.rs lines 252-257). -/
def normPassIndexed (verts : List Vertex) (ixs : List Nat) :
    Option (List Vec3) → Bool × List Vertex
  | none => (false, verts)
  | some ns => indexedWrites setNormal3 ns z3 verts ixs

/-- Optional indexed texcoord loop (blas.rs lines 258-264). -/
def uvPassIndexed (verts : List Vertex) (ixs : List Nat) :
    Option (List Vec2) → Bool × List Vertex
  | none => (false, verts)
  | some ts => indexedWrites setUV ts z2 verts ixs

/-- Vertex-run construction of `add_bvh_indexed` (blas.rs lines 242-264):
resize to `indices.len()` defaults, copy whole positions through the index
array, then the optional normals and texcoord loops, all resolved through the
same index array. -/
def fillVertexRunIndexed (desc : IndexedMeshDescriptor) : Bool × List Vertex :=
  let r1 := posPassIndexed desc
  if r1.1 then (true, r1.2)
  else
    let r2 := normPassIndexed r1.2 desc.indices desc.mesh.normals
    if r2.1 then (true, r2.2)
    else
      let r3 := uvPassIndexed r2.2 desc.indices desc.mesh.texcoords0
      if r3.1 then (true, r3.2) else (false, r3.2)

/-- blas.rs `BLASArray::add_bvh_indexed` (lines 235-277): push the entry,
append the indexed vertex run, then build over the freshly written positions
(the source views the new vertex slice as a position slice) and append nodes
and primitives. -/
def add_bvh_indexed (builder : Builder) (s : BLASArray) (desc : IndexedMeshDescriptor) :
    RunResult :=
  let entry := mkEntry s
  let fr := fillVertexRunIndexed desc
  if fr.1 then
    .panicked { s with entries := s.entries ++ [entry], vertices := s.vertices ++ fr.2 }
  else
    .ok { s with
          entries := s.entries ++ [entry]
          vertices := s.vertices ++ fr.2
          nodes := s.nodes ++ (test builder (fr.2.map Vertex.position)).1
          primitives := s.primitives ++ (test builder (fr.2.map Vertex.position)).2 }

/-- blas.rs `BLASArray::add_instance` (lines 279-289): checked entry lookup
(`entries.get(idx)`) followed by `.unwrap()` — the `None` case is a panic with
the state untouched — then an unconditional push of the instance with
`world_to_model = model_to_world.inverse()`. -/
def add_instance (s : BLASArray) (bvh_index : Nat) (model_to_world : Mat4) (material : Nat) :
    RunResult :=
  match s.entries.get? bvh_index with
  | none => .panicked s
  | some entry =>
    .ok { s with
          instances := s.instances ++
            [{ model_to_world := model_to_world
               world_to_model := mat4_inverse model_to_world
               material_index := material
               bvh_root_index := entry.node
               vertex_root_index := entry.vertex
               bvh_primitive_index := entry.primitive }] }

/-- A mesh handed to the aggregator: either the unindexed or the indexed entry
point.  Used to talk about sequences of `add_mesh` calls. -/
inductive MeshInput where
  | plain (m : MeshDescriptor)
  | indexed (d : IndexedMeshDescriptor)

def addMeshAny (builder : Builder) (s : BLASArray) : MeshInput → RunResult
  | .plain m => add_bvh builder s m
  | .indexed d => add_bvh_indexed builder s d

/-- Number of vertices a mesh appends: `positions.len()` unindexed,
`indices.len()` indexed. -/
def meshVertexCount : MeshInput → Nat
  | .plain m => m.positions.length
  | .indexed d => d.indices.length

def sumVerts (ms : List MeshInput) : Nat := (ms.map meshVertexCount).sum

/-- Run a sequence of `add_mesh` calls, stopping at the first panic. -/
def runMeshes (builder : Builder) : BLASArray → List MeshInput → RunResult
  | s, [] => .ok s
  | s, m :: ms =>
    match addMeshAny builder s m with
    | .ok s1 => runMeshes builder s1 ms
    | .panicked s1 => .panicked s1

/-- Builder returning no nodes and the identity permutation; used as a concrete
builder instantiation in witnesses and counterexamples. -/
def idBuilder : Builder := fun tris => { nodes := [], primitive_indices := List.range tris.length }

/-! ## Basic facts about the vertex-run helpers -/

theorem writeAll_length (g : Vertex → α → Vertex) (verts : List Vertex) (xs : List α) :
    (writeAll g verts xs).length = verts.length := by
  simp only [writeAll, List.length_append, List.length_zipWith, List.length_drop]
  omega

theorem indexedWrites_length (g : Vertex → α → Vertex) (src : List α) (d : α) :
    ∀ (verts : List Vertex) (ixs : List Nat),
      (indexedWrites g src d verts ixs).2.length = verts.length
  | [], [] => by simp [indexedWrites]
  | [], _ :: _ => by simp [indexedWrites]
  | _ :: _, [] => by simp [indexedWrites]
  | v :: vs, ix :: ixs => by
    by_cases h : ix < src.length
    · simp [indexedWrites, h, indexedWrites_length g src d vs ixs]
    · simp [indexedWrites, h]

theorem baseVerts_length (positions : List Vec4) :
    (baseVerts positions).length = positions.length := by
  simp [baseVerts]

theorem normPass_length (verts : List Vertex) (o : Option (List Vec3)) :
    (normPass verts o).length = verts.length := by
  cases o <;> simp [normPass, writeAll_length]

theorem uvPass_length (verts : List Vertex) (o : Option (List Vec2)) :
    (uvPass verts o).length = verts.length := by
  cases o <;> simp [uvPass, writeAll_length]

theorem fillVertexRun_length (mesh : MeshDescriptor) :
    (fillVertexRun mesh).2.length = mesh.positions.length := by
  simp only [fillVertexRun]
  split_ifs <;>
    simp [uvPass_length, normPass_length, baseVerts_length]

theorem posPassIndexed_length (desc : IndexedMeshDescriptor) :
    (posPassIndexed desc).2.length = desc.indices.length := by
  simp [posPassIndexed, indexedWrites_length]

theorem normPassIndexed_length (verts : List Vertex) (ixs : List Nat)
    (o : Option (List Vec3)) : (normPassIndexed verts ixs o).2.length = verts.length := by
  cases o <;> simp [normPassIndexed, indexedWrites_length]

theorem uvPassIndexed_length (verts : List Vertex) (ixs : List Nat)
    (o : Option (List Vec2)) : (uvPassIndexed verts ixs o).2.length = verts.length := by
  cases o <;> simp [uvPassIndexed, indexedWrites_length]

theorem fillVertexRunIndexed_length (desc : IndexedMeshDescriptor) :
    (fillVertexRunIndexed desc).2.length = desc.indices.length := by
  simp only [fillVertexRunIndexed]
  split_ifs <;>
    simp [uvPassIndexed_length, normPassIndexed_length, posPassIndexed_length]

/-- The unindexed vertex run panics exactly when an optional attribute array is
longer than the position array. -/
theorem fillVertexRun_fst (mesh : MeshDescriptor) :
    (fillVertexRun mesh).1 = true ↔
      mesh.positions.length < normalsLen mesh ∨ mesh.positions.length < texcoordsLen mesh := by
  rcases mesh with ⟨pos, ns, ts⟩
  cases ns <;> cases ts <;>
    simp only [fillVertexRun, normalsLen, texcoordsLen] <;>
    split_ifs <;>
    simp_all

/-- Inversion for a successful `add_bvh`: the run did not panic and the result
state is the four appends. -/
theorem add_bvh_ok_inv (builder : Builder) (s : BLASArray) (mesh : MeshDescriptor)
    (s' : BLASArray) (h : add_bvh builder s mesh = .ok s') :
    (fillVertexRun mesh).1 = false ∧
      s' = { s with
             entries := s.entries ++ [mkEntry s]
             vertices := s.vertices ++ (fillVertexRun mesh).2
             nodes := s.nodes ++ (test builder mesh.positions).1
             primitives := s.primitives ++ (test builder mesh.positions).2 } := by
  unfold add_bvh at h
  by_cases hb : (fillVertexRun mesh).1 <;> simp [hb] at h ⊢
  exact h.symm

/-- Inversion for a successful `add_bvh_indexed`. -/
theorem add_bvh_indexed_ok_inv (builder : Builder) (s : BLASArray)
    (desc : IndexedMeshDescriptor) (s' : BLASArray)
    (h : add_bvh_indexed builder s desc = .ok s') :
    (fillVertexRunIndexed desc).1 = false ∧
      s' = { s with
             entries := s.entries ++ [mkEntry s]
             vertices := s.vertices ++ (fillVertexRunIndexed desc).2
             nodes := s.nodes ++ (test builder ((fillVertexRunIndexed desc).2.map Vertex.position)).1
             primitives :=
               s.primitives ++ (test builder ((fillVertexRunIndexed desc).2.map Vertex.position)).2 } := by
  unfold add_bvh_indexed at h
  by_cases hb : (fillVertexRunIndexed desc).1 <;> simp [hb] at h ⊢
  exact h.symm

/-! ## Claim C1: out-of-range `add_instance` -/

/-- Claim C1: for every aggregator state and every `entry_index` with
`entry_index >= entries.len()` (in particular `entry_index = entries.len()`),
`add_instance` fails — the checked lookup `entries.get(idx)` returns `None` and
the `unwrap` raises the index-out-of-range failure — without ever reading out
of bounds, and it leaves the `instances` array (indeed the entire aggregator
state) unchanged. -/
theorem add_instance_out_of_range (s : BLASArray) (idx : Nat) (m : Mat4) (material : Nat)
    (h : s.entries.length ≤ idx) :
    add_instance s idx m material = .panicked s := by
  unfold add_instance
  rw [List.get?_eq_none.mpr h]

/-- Witness for C1: on the empty aggregator, `add_instance 0` (that is,
`entry_index = entries.len()`) fails and changes nothing. -/
theorem add_instance_out_of_range_witness :
    emptyBLAS.entries.length ≤ 0 ∧ add_instance emptyBLAS 0 1 7 = .panicked emptyBLAS :=
  ⟨by decide, add_instance_out_of_range emptyBLAS 0 1 7 (by decide)⟩

/-! ## Claim C7: singular transform is stored without any error -/

/-- Aggregator holding exactly one entry, as left by one successful mesh
append; concrete input for the C7 failing case. -/
def oneEntryBLAS : BLASArray := ⟨[⟨0, 0, 0⟩], [], [], [], []⟩

/-- Claim C7 (code behaviour at the failing input): the zero matrix is
singular (determinant zero), yet `add_instance` with a valid entry index
reports no error and unconditionally stores the instance, with
`world_to_model` the unconditionally computed `inverse` of the singular matrix
(undefined/NaN in the `f32` source).  The spec requires an invalid-transform
error and no stored instance here. -/
theorem add_instance_singular_no_error :
    Matrix.det (0 : Mat4) = 0 ∧
      add_instance oneEntryBLAS 0 0 5 =
        .ok { oneEntryBLAS with
              instances := [{ model_to_world := 0
                              world_to_model := mat4_inverse 0
                              material_index := 5
                              bvh_root_index := 0
                              vertex_root_index := 0
                              bvh_primitive_index := 0 }] } := by
  constructor
  · simp [Matrix.det_zero]
  · rfl

/-! ## Claim C4: failures are swallowed and arrays are mutated up front -/

/-- Claim C4 (code behaviour): `add_bvh` has no failure path to its caller —
on the degenerate zero-triangle mesh (an input §4.3 requires the builder to
reject) it returns normally for every builder — and for every input it has
already pushed the new entry (mutating the aggregator) before the extraction
and build even run, so no failure could leave the arrays unmodified. -/
theorem add_bvh_swallows_failure (builder : Builder) (s : BLASArray) :
    (add_bvh builder s { positions := [], normals := none, texcoords0 := none }).isOk = true ∧
      ∀ mesh : MeshDescriptor,
        (add_bvh builder s mesh).state.entries.length = s.entries.length + 1 := by
  constructor
  · rfl
  · intro mesh
    by_cases hb : (fillVertexRun mesh).1 <;> simp [add_bvh, hb, RunResult.state]

/-! ## getD helper lemmas -/

theorem getD_map_of_lt (f : α → β) (l : List α) (d : β) (d' : α) :
    ∀ (j : Nat), j < l.length → (l.map f).getD j d = f (l.getD j d')
  | j, hj => by
    rw [List.getD_eq_getElem _ _ (by simpa using hj), List.getD_eq_getElem _ _ hj]
    simp

theorem getD_mem_of_lt (l : List α) (j : Nat) (hj : j < l.length) (d : α) :
    l.getD j d ∈ l := by
  rw [List.getD_eq_getElem _ _ hj]
  exact List.getElem_mem hj

theorem getD_append_add (l1 l2 : List α) (j : Nat) (d : α) :
    (l1 ++ l2).getD (l1.length + j) d = l2.getD j d := by
  rw [List.getD_append_right _ _ _ _ (Nat.le_add_right _ _)]
  simp

/-! ## Claim C2: edge winding of the encoded primitives -/

/-- Single triangle `(0,0,0) (1,0,0) (0,1,0)` as an unindexed position array. -/
def oneTriPositions : List Vec4 := [(0, 0, 0, 0), (1, 0, 0, 0), (0, 1, 0, 0)]

def oneTriMesh : MeshDescriptor := ⟨oneTriPositions, none, none⟩

/-- Counterexample to claim C2 at an explicit input: for the single triangle
with `v0 = (0,0,0)`, `v1 = (1,0,0)`, `v2 = (0,1,0)` (identity builder
permutation), `v2 - v0 = (0,1,0)`, but the encoder stores `edge_1 = (1,0,0)`
(that is, `v1 - v0`), refuting `edge_1 = v2 - v0`. -/
theorem winding_counterexample :
    vec3of (oneTriPositions.getD 2 (0, 0, 0, 0)) - vec3of (oneTriPositions.getD 0 (0, 0, 0, 0)) =
        ((0 : Rat), (1 : Rat), (0 : Rat)) ∧
      ((test idBuilder oneTriPositions).2.getD 0 dPrim).edge_1 = ((1 : Rat), (0 : Rat), (0 : Rat)) ∧
      ((1 : Rat), (0 : Rat), (0 : Rat)) ≠ ((0 : Rat), (1 : Rat), (0 : Rat)) := by
  refine ⟨?_, ?_, ?_⟩
  · norm_num [oneTriPositions, vec3of, Prod.ext_iff]
  · norm_num [test, idBuilder, extractTriangles, encodePrimitives, oneTriPositions, vec3of,
      Prod.ext_iff]
  · simp [Prod.ext_iff]

/-- Claim C2 as amended (the roles of the two edges are swapped with respect to
the claim): every primitive appended by `add_bvh` stores, for its source
triangle `t` (the triangle at its builder-permutation index), `vertex_0 = t.v0`,
`edge_1 = t.v1 - t.v0` and `edge_2 = t.v2 - t.v0` — one consistent winding
convention for all primitives, but with `edge_1`/`edge_2` exchanged relative to
the claim's wording. -/
theorem add_bvh_winding (builder : Builder) (s : BLASArray) (mesh : MeshDescriptor)
    (s' : BLASArray) (hok : add_bvh builder s mesh = .ok s') (j : Nat)
    (hj : j < (builder (extractTriangles mesh.positions)).primitive_indices.length) :
    (s'.primitives.getD (s.primitives.length + j) dPrim).vertex_0 =
        ((extractTriangles mesh.positions).getD
          ((builder (extractTriangles mesh.positions)).primitive_indices.getD j 0)
          trivialTriangle).v0 ∧
      (s'.primitives.getD (s.primitives.length + j) dPrim).edge_1 =
        ((extractTriangles mesh.positions).getD
            ((builder (extractTriangles mesh.positions)).primitive_indices.getD j 0)
            trivialTriangle).v1 -
          ((extractTriangles mesh.positions).getD
            ((builder (extractTriangles mesh.positions)).primitive_indices.getD j 0)
            trivialTriangle).v0 ∧
      (s'.primitives.getD (s.primitives.length + j) dPrim).edge_2 =
        ((extractTriangles mesh.positions).getD
            ((builder (extractTriangles mesh.positions)).primitive_indices.getD j 0)
            trivialTriangle).v2 -
          ((extractTriangles mesh.positions).getD
            ((builder (extractTriangles mesh.positions)).primitive_indices.getD j 0)
            trivialTriangle).v0 := by
  obtain ⟨-, rfl⟩ := add_bvh_ok_inv builder s mesh s' hok
  simp only [test, getD_append_add]
  rw [encodePrimitives, getD_map_of_lt _ _ _ 0 j hj]
  exact ⟨rfl, rfl, rfl⟩

/-- Witness for the amended C2 theorem at the concrete one-triangle mesh with
the identity builder. -/
theorem add_bvh_winding_witness :
    add_bvh idBuilder emptyBLAS oneTriMesh = .ok (add_bvh idBuilder emptyBLAS oneTriMesh).state ∧
      0 < (idBuilder (extractTriangles oneTriMesh.positions)).primitive_indices.length ∧
      ((add_bvh idBuilder emptyBLAS oneTriMesh).state.primitives.getD 0 dPrim).edge_1 =
        ((extractTriangles oneTriMesh.positions).getD
            ((idBuilder (extractTriangles oneTriMesh.positions)).primitive_indices.getD 0 0)
            trivialTriangle).v1 -
          ((extractTriangles oneTriMesh.positions).getD
            ((idBuilder (extractTriangles oneTriMesh.positions)).primitive_indices.getD 0 0)
            trivialTriangle).v0 :=
  ⟨rfl, by decide,
    (add_bvh_winding idBuilder emptyBLAS oneTriMesh
        (add_bvh idBuilder emptyBLAS oneTriMesh).state rfl 0 (by decide)).2.1⟩

/-! ## Claim C3: no malformed-mesh error, silent truncation -/

theorem getD_take_of_lt (d : α) : ∀ (l : List α) (m k : Nat), k < m →
    (l.take m).getD k d = l.getD k d
  | [], _, _, _ => by simp
  | _ :: _, 0, _, hk => by omega
  | a :: t, m + 1, 0, _ => by simp
  | a :: t, m + 1, k + 1, hk => by
    simp only [List.take_succ_cons, List.getD_cons_succ]
    exact getD_take_of_lt d t m k (by omega)

theorem extractTriangles_length (positions : List Vec4) :
    (extractTriangles positions).length = positions.length / 3 := by
  simp [extractTriangles]

/-- The extractor reads only the first `3 * (len / 3)` positions: the trailing
`len % 3` positions never reach the builder. -/
theorem extractTriangles_take (positions : List Vec4) :
    extractTriangles (positions.take (positions.length / 3 * 3)) = extractTriangles positions := by
  unfold extractTriangles
  have hle : positions.length / 3 * 3 ≤ positions.length := Nat.div_mul_le_self _ _
  have hlen : (positions.take (positions.length / 3 * 3)).length = positions.length / 3 * 3 := by
    simp [List.length_take, Nat.min_eq_left hle]
  rw [hlen, Nat.mul_div_cancel _ (by omega : 0 < 3)]
  refine List.map_congr_left fun i hi => ?_
  have hi3 : i < positions.length / 3 := List.mem_range.mp hi
  have hbound : i * 3 + 3 ≤ positions.length / 3 * 3 := by
    have := Nat.mul_le_mul_right 3 (Nat.succ_le_of_lt hi3)
    omega
  rw [getD_take_of_lt _ _ _ _ (by omega), getD_take_of_lt _ _ _ _ (by omega),
    getD_take_of_lt _ _ _ _ (by omega)]

/-- All index dereferences of an indexed mesh stay inside the present
attribute arrays (the implicit precondition of `add_bvh_indexed` for not
panicking). -/
def indexedInRange (desc : IndexedMeshDescriptor) : Bool :=
  desc.indices.all (fun ix => ix < desc.mesh.positions.length) &&
    (match desc.mesh.normals with
     | none => true
     | some ns => desc.indices.all (fun ix => ix < ns.length)) &&
    (match desc.mesh.texcoords0 with
     | none => true
     | some ts => desc.indices.all (fun ix => ix < ts.length))

theorem indexedWrites_ok_of (g : Vertex → α → Vertex) (src : List α) (d : α) :
    ∀ (verts : List Vertex) (ixs : List Nat), ixs.length ≤ verts.length →
      (∀ ix ∈ ixs, ix < src.length) → (indexedWrites g src d verts ixs).1 = false
  | verts, [], _, _ => by cases verts <;> simp [indexedWrites]
  | [], ix :: ixs, hlen, _ => by simp at hlen
  | v :: vs, ix :: ixs, hlen, hall => by
    have hix : ix < src.length := hall ix (List.mem_cons_self _ _)
    simp only [indexedWrites, hix, if_true]
    exact indexedWrites_ok_of g src d vs ixs (by simpa using hlen)
      fun i hi => hall i (List.mem_cons_of_mem _ hi)

/-- An in-range indexed mesh never panics the indexed vertex-run builder. -/
theorem fillVertexRunIndexed_ok (desc : IndexedMeshDescriptor)
    (h : indexedInRange desc = true) : (fillVertexRunIndexed desc).1 = false := by
  rcases desc with ⟨⟨pos, ns, ts⟩, ixs⟩
  cases ns <;> cases ts <;>
    simp only [indexedInRange, Bool.and_eq_true, List.all_eq_true, decide_eq_true_eq,
      and_true, true_and] at h
  case none.none =>
    have w1 := indexedWrites_ok_of setPos4 pos z4
      (List.replicate ixs.length Vertex.zeroed) ixs (by simp) h
    simp [fillVertexRunIndexed, posPassIndexed, normPassIndexed, uvPassIndexed, w1]
  case none.some ts =>
    obtain ⟨h1, h3⟩ := h
    have w1 := indexedWrites_ok_of setPos4 pos z4
      (List.replicate ixs.length Vertex.zeroed) ixs (by simp) h1
    have w3 := indexedWrites_ok_of setUV ts z2
      (indexedWrites setPos4 pos z4 (List.replicate ixs.length Vertex.zeroed) ixs).2
      ixs (by simp [indexedWrites_length]) h3
    simp [fillVertexRunIndexed, posPassIndexed, normPassIndexed, uvPassIndexed, w1, w3]
  case some.none ns =>
    obtain ⟨h1, h2⟩ := h
    have w1 := indexedWrites_ok_of setPos4 pos z4
      (List.replicate ixs.length Vertex.zeroed) ixs (by simp) h1
    have w2 := indexedWrites_ok_of setNormal3 ns z3
      (indexedWrites setPos4 pos z4 (List.replicate ixs.length Vertex.zeroed) ixs).2
      ixs (by simp [indexedWrites_length]) h2
    simp [fillVertexRunIndexed, posPassIndexed, normPassIndexed, uvPassIndexed, w1, w2]
  case some.some ns ts =>
    obtain ⟨⟨h1, h2⟩, h3⟩ := h
    have w1 := indexedWrites_ok_of setPos4 pos z4
      (List.replicate ixs.length Vertex.zeroed) ixs (by simp) h1
    have w2 := indexedWrites_ok_of setNormal3 ns z3
      (indexedWrites setPos4 pos z4 (List.replicate ixs.length Vertex.zeroed) ixs).2
      ixs (by simp [indexedWrites_length]) h2
    have w3 := indexedWrites_ok_of setUV ts z2
      (indexedWrites setNormal3 ns z3
        (indexedWrites setPos4 pos z4 (List.replicate ixs.length Vertex.zeroed)
          ixs).2 ixs).2
      ixs (by simp [indexedWrites_length]) h3
    simp [fillVertexRunIndexed, posPassIndexed, normPassIndexed, uvPassIndexed, w1, w2, w3]

/-- Aggregator input whose position count is 4 (not a multiple of 3). -/
def mesh4 : MeshDescriptor :=
  ⟨[(0, 0, 0, 0), (1, 0, 0, 0), (0, 1, 0, 0), (5, 5, 5, 0)], none, none⟩

/-- Counterexample to claim C3 at an explicit input: a 4-position unindexed
mesh (`4 % 3 = 1`) makes `add_bvh` return normally — there is no
malformed-mesh failure of any kind — after silently truncating to
`4 / 3 = 1` triangle. -/
theorem malformed_counterexample :
    mesh4.positions.length % 3 = 1 ∧
      (add_bvh idBuilder emptyBLAS mesh4).isOk = true ∧
      (add_bvh idBuilder emptyBLAS mesh4).state.primitives.length = 1 :=
  ⟨by decide, by decide, by decide⟩

/-- Claim C3 as amended: `add_mesh` never fails on a position (resp. index)
count that is not a multiple of 3; it silently truncates.  For every mesh whose
optional attribute arrays do not overrun the positions, the unindexed call
returns normally, exactly `len / 3` triangles are extracted, and the trailing
`len % 3` positions are invisible to the builder; the indexed call returns
normally for every in-range index array (of any length, using `indices.len / 3`
triangles). -/
theorem add_mesh_truncates (builder : Builder) (s : BLASArray) (mesh : MeshDescriptor)
    (hns : normalsLen mesh ≤ mesh.positions.length)
    (hts : texcoordsLen mesh ≤ mesh.positions.length) :
    (add_bvh builder s mesh).isOk = true ∧
      (extractTriangles mesh.positions).length = mesh.positions.length / 3 ∧
      extractTriangles (mesh.positions.take (mesh.positions.length / 3 * 3)) =
        extractTriangles mesh.positions ∧
      ∀ desc : IndexedMeshDescriptor, indexedInRange desc = true →
        (add_bvh_indexed builder s desc).isOk = true := by
  have hf : (fillVertexRun mesh).1 = false := by
    cases hb : (fillVertexRun mesh).1
    · rfl
    · rcases (fillVertexRun_fst mesh).mp hb with h | h <;> omega
  refine ⟨by simp [add_bvh, hf, RunResult.isOk], extractTriangles_length _,
    extractTriangles_take _, ?_⟩
  intro desc hdesc
  simp [add_bvh_indexed, fillVertexRunIndexed_ok desc hdesc, RunResult.isOk]

/-- Witness for the amended C3 theorem: the hypotheses hold at `mesh4` (a
position count with remainder 1) and the call succeeds with one extracted
triangle. -/
theorem add_mesh_truncates_witness :
    normalsLen mesh4 ≤ mesh4.positions.length ∧
      texcoordsLen mesh4 ≤ mesh4.positions.length ∧
      mesh4.positions.length % 3 = 1 ∧
      (add_bvh idBuilder emptyBLAS mesh4).isOk = true ∧
      (extractTriangles mesh4.positions).length = 1 :=
  ⟨by decide, by decide, by decide,
    (add_mesh_truncates idBuilder emptyBLAS mesh4 (by decide) (by decide)).1,
    by simpa using (add_mesh_truncates idBuilder emptyBLAS mesh4 (by decide) (by decide)).2.1⟩

/-! ## Claim C9: entry-local node indices and the times-3 scale -/

/-- Builder node with entry-local primitive base index 2, used to exhibit the
stored times-3 scale. -/
def cwNode9 : CwBvhNode :=
  { p := (0, 0, 0), e0 := 0, e1 := 0, e2 := 0, imask := 0, child_base_idx := 0
    primitive_base_idx := 2, child_meta := [], child_min_x := [], child_min_y := []
    child_min_z := [], child_max_x := [], child_max_y := [], child_max_z := [] }

def builder9 : Builder :=
  fun tris => { nodes := [cwNode9], primitive_indices := List.range tris.length }

/-- 12 degenerate positions: four triangles. -/
def mesh12 : MeshDescriptor := ⟨List.replicate 12 ((0 : Rat), (0 : Rat), (0 : Rat), (0 : Rat)), none, none⟩

/-- Counterexample to claim C9 at an explicit input: for a four-triangle mesh
whose builder reports a node with entry-local primitive base index 2, the
encoder stores `primitive_base_idx = 6`, which differs from the entry-local
primitive index 2 and does not even lie inside the entry-local primitive array
(of length 4) — the stored value is scaled by 3. -/
theorem node_local_index_counterexample :
    (add_bvh builder9 emptyBLAS mesh12).isOk = true ∧
      ((add_bvh builder9 emptyBLAS mesh12).state.nodes.getD 0 dBVHNode).primitive_base_idx = 6 ∧
      (add_bvh builder9 emptyBLAS mesh12).state.primitives.length = 4 ∧
      ¬ ((add_bvh builder9 emptyBLAS mesh12).state.nodes.getD 0 dBVHNode).primitive_base_idx <
          (add_bvh builder9 emptyBLAS mesh12).state.primitives.length ∧
      ((add_bvh builder9 emptyBLAS mesh12).state.nodes.getD 0 dBVHNode).primitive_base_idx ≠
        cwNode9.primitive_base_idx :=
  ⟨by decide, by decide, by decide, by decide, by decide⟩

/-- Claim C9 as amended: the encoder adds no global entry offset to the node
indices — `child_base_index` is copied verbatim from the builder node (hence
zero-based within the owning entry), and `primitive_base_index` is stored as
3 times the entry-local primitive index (wrapped to `u32`), again with no
global offset; addressing the entry-local primitive array through it requires
undoing the times-3 scale. -/
theorem add_bvh_node_indices (builder : Builder) (s : BLASArray) (mesh : MeshDescriptor)
    (s' : BLASArray) (hok : add_bvh builder s mesh = .ok s') (j : Nat)
    (hj : j < (builder (extractTriangles mesh.positions)).nodes.length) :
    (s'.nodes.getD (s.nodes.length + j) dBVHNode).child_base_idx =
        ((builder (extractTriangles mesh.positions)).nodes.getD j dCwNode).child_base_idx ∧
      (s'.nodes.getD (s.nodes.length + j) dBVHNode).primitive_base_idx =
        ((builder (extractTriangles mesh.positions)).nodes.getD j dCwNode).primitive_base_idx *
          3 % U32 := by
  obtain ⟨-, rfl⟩ := add_bvh_ok_inv builder s mesh s' hok
  simp only [test, getD_append_add]
  rw [getD_map_of_lt encodeNode _ _ dCwNode j hj]
  exact ⟨rfl, rfl⟩

/-- Witness for the amended C9 theorem at the concrete builder `builder9`. -/
theorem add_bvh_node_indices_witness :
    add_bvh builder9 emptyBLAS mesh12 = .ok (add_bvh builder9 emptyBLAS mesh12).state ∧
      0 < (builder9 (extractTriangles mesh12.positions)).nodes.length ∧
      ((add_bvh builder9 emptyBLAS mesh12).state.nodes.getD (emptyBLAS.nodes.length + 0)
            dBVHNode).primitive_base_idx =
        ((builder9 (extractTriangles mesh12.positions)).nodes.getD 0
            dCwNode).primitive_base_idx * 3 % U32 :=
  ⟨rfl, by decide,
    (add_bvh_node_indices builder9 emptyBLAS mesh12 _ rfl 0 (by decide)).2⟩

/-! ## Claim C8: primitive count and permutation of original indices -/

theorem encodePrimitives_map_original (tris : List Triangle) :
    ∀ idxs : List Nat, (encodePrimitives tris idxs).map BVHPrimitive.original_primitive = idxs
  | [] => rfl
  | a :: t => congrArg (List.cons a) (encodePrimitives_map_original tris t)

/-- Claim C8: under the builder contract of §4.3 — the builder's
`primitive_indices` is a permutation of `0..triangle_count` — the number of
primitives appended by `add_bvh` equals the mesh's triangle count
(`positions.len / 3`), and the `original_primitive` fields of the appended
primitives are exactly that permutation of `0..triangle_count`: every input
triangle appears exactly once. -/
theorem add_bvh_primitive_permutation (builder : Builder) (s : BLASArray)
    (mesh : MeshDescriptor) (s' : BLASArray) (hok : add_bvh builder s mesh = .ok s')
    (hperm : ((builder (extractTriangles mesh.positions)).primitive_indices).Perm
      (List.range (mesh.positions.length / 3))) :
    s'.primitives.length = s.primitives.length + mesh.positions.length / 3 ∧
      ((s'.primitives.drop s.primitives.length).map BVHPrimitive.original_primitive).Perm
        (List.range (mesh.positions.length / 3)) := by
  obtain ⟨-, rfl⟩ := add_bvh_ok_inv builder s mesh s' hok
  constructor
  · have hlen := hperm.length_eq
    simp only [List.length_range] at hlen
    simp [test, encodePrimitives, hlen]
  · simp only [test]
    rw [List.drop_left, encodePrimitives_map_original]
    exact hperm

/-- Witness for C8 at the one-triangle mesh with the identity builder. -/
theorem add_bvh_primitive_permutation_witness :
    add_bvh idBuilder emptyBLAS oneTriMesh = .ok (add_bvh idBuilder emptyBLAS oneTriMesh).state ∧
      ((idBuilder (extractTriangles oneTriMesh.positions)).primitive_indices).Perm
        (List.range (oneTriMesh.positions.length / 3)) ∧
      (add_bvh idBuilder emptyBLAS oneTriMesh).state.primitives.length =
        emptyBLAS.primitives.length + oneTriMesh.positions.length / 3 :=
  ⟨rfl, List.Perm.refl _,
    (add_bvh_primitive_permutation idBuilder emptyBLAS oneTriMesh _ rfl (List.Perm.refl _)).1⟩

/-! ## Claim C10: attribute overrun panics after the vertex array grew -/

/-- Claim C10: in the unindexed variant, an optional normals or texcoords
array longer than the positions array makes `add_bvh` abort with the
out-of-bounds write panic, at a point where the vertex array has already been
extended by `positions.len` slots; and the call is panic-free exactly under
the implicit precondition `normals.len <= positions.len` and
`texcoords.len <= positions.len`. -/
theorem add_bvh_attribute_overrun (builder : Builder) (s : BLASArray) (mesh : MeshDescriptor) :
    (mesh.positions.length < normalsLen mesh ∨ mesh.positions.length < texcoordsLen mesh →
        (add_bvh builder s mesh).isOk = false ∧
          (add_bvh builder s mesh).state.vertices.length =
            s.vertices.length + mesh.positions.length) ∧
      (normalsLen mesh ≤ mesh.positions.length ∧ texcoordsLen mesh ≤ mesh.positions.length →
        (add_bvh builder s mesh).isOk = true) := by
  constructor
  · intro h
    have hf : (fillVertexRun mesh).1 = true := (fillVertexRun_fst mesh).mpr h
    constructor
    · simp [add_bvh, hf, RunResult.isOk]
    · simp [add_bvh, hf, RunResult.state, fillVertexRun_length]
  · intro h
    have hf : (fillVertexRun mesh).1 = false := by
      cases hb : (fillVertexRun mesh).1
      · rfl
      · rcases (fillVertexRun_fst mesh).mp hb with hc | hc <;> omega
    simp [add_bvh, hf, RunResult.isOk]

/-- Mesh with no positions but one normal: the overrun input for the C10
witness. -/
def overrunMesh : MeshDescriptor := ⟨[], some [((0 : Rat), (0 : Rat), (0 : Rat))], none⟩

/-- Witness for C10: at the concrete overrun mesh the call panics with the
vertex array already extended (by zero slots here). -/
theorem add_bvh_attribute_overrun_witness :
    (overrunMesh.positions.length < normalsLen overrunMesh ∨
        overrunMesh.positions.length < texcoordsLen overrunMesh) ∧
      (add_bvh idBuilder emptyBLAS overrunMesh).isOk = false ∧
        (add_bvh idBuilder emptyBLAS overrunMesh).state.vertices.length =
          emptyBLAS.vertices.length + overrunMesh.positions.length :=
  ⟨Or.inl (by decide),
    (add_bvh_attribute_overrun idBuilder emptyBLAS overrunMesh).1 (Or.inl (by decide))⟩

/-! ## Claim C5: entry offsets record the array lengths at call time -/

/-- One successful `add_mesh` call: the entry pushed is the pre-call lengths
(wrapped to `u32`), the vertex array grows by the mesh's vertex count, and the
node/primitive arrays only grow. -/
theorem addMeshAny_ok_spec (builder : Builder) (s : BLASArray) (m : MeshInput)
    (s' : BLASArray) (h : addMeshAny builder s m = .ok s') :
    s'.entries = s.entries ++ [mkEntry s] ∧
      s'.vertices.length = s.vertices.length + meshVertexCount m ∧
      s.nodes.length ≤ s'.nodes.length ∧
      s.primitives.length ≤ s'.primitives.length := by
  cases m with
  | plain mesh =>
    obtain ⟨-, rfl⟩ := add_bvh_ok_inv builder s mesh s' h
    exact ⟨rfl, by simp [meshVertexCount, fillVertexRun_length],
      by simp, by simp⟩
  | indexed desc =>
    obtain ⟨-, rfl⟩ := add_bvh_indexed_ok_inv builder s desc s' h
    exact ⟨rfl, by simp [meshVertexCount, fillVertexRunIndexed_length],
      by simp, by simp⟩

/-- The `u32`-wrapped entry built from a raw triple of array lengths. -/
def entryOfTriple (t : Nat × Nat × Nat) : BLASEntryDescriptor :=
  ⟨t.1 % U32, t.2.1 % U32, t.2.2 % U32⟩

/-- Consecutive elements of a `Chain'` list, accessed through `getD`. -/
theorem chain_getD {α : Type} {R : α → α → Prop} (l : List α) (d : α)
    (h : List.Chain' R l) :
    ∀ i, i + 1 < l.length → R (l.getD i d) (l.getD (i + 1) d) := by
  intro i hi
  have h2 := List.chain'_iff_get.mp h i (by omega)
  simp only [List.get_eq_getElem] at h2
  rwa [List.getD_eq_getElem _ _ (by omega : i < l.length), List.getD_eq_getElem _ _ hi]

/-- Structure of the entries created by a successful sequence of `add_mesh`
calls: each is the (wrapped) triple of array lengths at the moment of its call;
those raw lengths are bracketed by the initial and final lengths, the
node/primitive/vertex components are pairwise monotone in call order, and the
raw vertex component of the i-th new entry is the initial vertex count plus the
vertices added by the earlier meshes. -/
theorem runMeshes_ok_spec (builder : Builder) :
    ∀ (ms : List MeshInput) (s0 s : BLASArray), runMeshes builder s0 ms = .ok s →
      ∃ raw : List (Nat × Nat × Nat),
        s.entries = s0.entries ++ raw.map entryOfTriple ∧
          raw.length = ms.length ∧
          (∀ i, i < ms.length →
            (raw.getD i (0, 0, 0)).2.2 = s0.vertices.length + sumVerts (ms.take i)) ∧
          (∀ t ∈ raw,
            s0.nodes.length ≤ t.1 ∧ t.1 ≤ s.nodes.length ∧
              s0.primitives.length ≤ t.2.1 ∧ t.2.1 ≤ s.primitives.length ∧
              s0.vertices.length ≤ t.2.2 ∧ t.2.2 ≤ s.vertices.length) ∧
          List.Chain' (fun a b => a.1 ≤ b.1 ∧ a.2.1 ≤ b.2.1 ∧ a.2.2 ≤ b.2.2) raw ∧
          s.vertices.length = s0.vertices.length + sumVerts ms ∧
          s0.nodes.length ≤ s.nodes.length ∧ s0.primitives.length ≤ s.primitives.length := by
  intro ms
  induction ms with
  | nil =>
    intro s0 s h
    simp only [runMeshes, RunResult.ok.injEq] at h
    subst h
    refine ⟨[], by simp, rfl, ?_, by simp, List.chain'_nil, by simp [sumVerts],
      le_refl _, le_refl _⟩
    intro i hi
    simp at hi
  | cons m ms ih =>
    intro s0 s h
    simp only [runMeshes] at h
    cases haddm : addMeshAny builder s0 m with
    | panicked s1 => rw [haddm] at h; simp at h
    | ok s1 =>
      rw [haddm] at h
      obtain ⟨he, hv, hn, hp⟩ := addMeshAny_ok_spec builder s0 m s1 haddm
      obtain ⟨raw, hre, hrlen, hrv, hrb, hrchain, hsv, hsn, hsp⟩ := ih s1 s h
      refine ⟨(s0.nodes.length, s0.primitives.length, s0.vertices.length) :: raw,
        ?_, ?_, ?_, ?_, ?_, ?_, hn.trans hsn, hp.trans hsp⟩
      · rw [hre, he]
        simp [mkEntry, entryOfTriple, List.append_assoc]
      · simp [hrlen]
      · intro i hi
        cases i with
        | zero => simp [sumVerts]
        | succ j =>
          have hj : j < ms.length := by simpa using hi
          have h2 := hrv j hj
          have h3 : sumVerts ((m :: ms).take (j + 1)) =
              meshVertexCount m + sumVerts (ms.take j) := by
            simp [sumVerts]
          rw [List.getD_cons_succ]
          omega
      · intro t ht
        rcases List.mem_cons.mp ht with rfl | ht2
        · refine ⟨le_refl _, hn.trans hsn, le_refl _, hp.trans hsp, le_refl _, ?_⟩
          show s0.vertices.length ≤ s.vertices.length
          omega
        · obtain ⟨b1, b2, b3, b4, b5, b6⟩ := hrb t ht2
          exact ⟨hn.trans b1, b2, hp.trans b3, b4,
            le_trans (show s0.vertices.length ≤ s1.vertices.length by omega) b5, b6⟩
      · rw [List.chain'_cons']
        refine ⟨?_, hrchain⟩
        intro b hb
        have hbmem : b ∈ raw := List.mem_of_mem_head? hb
        obtain ⟨b1, -, b3, -, b5, -⟩ := hrb b hbmem
        exact ⟨hn.trans b1, hp.trans b3,
          le_trans (show s0.vertices.length ≤ s1.vertices.length by omega) b5⟩
      · have h4 : sumVerts (m :: ms) = meshVertexCount m + sumVerts ms := by simp [sumVerts]
        omega

/-- Claim C5: starting from the empty aggregator, after any sequence of
successful `add_mesh` calls whose final array lengths fit in `u32` (the type of
the stored offsets), the i-th entry records the lengths of the arrays at the
moment of its call; in particular `entries[i].vertex` equals the sum of the
vertices added by all earlier meshes, and the recorded node offsets are
monotone (`entries[i].node <= entries[i+1].node`): no gaps, no overlap. -/
theorem add_mesh_offsets (builder : Builder) (ms : List MeshInput) (s : BLASArray)
    (hok : runMeshes builder emptyBLAS ms = .ok s)
    (hnodes : s.nodes.length < U32) (hverts : s.vertices.length < U32) :
    s.entries.length = ms.length ∧
      (∀ i, i < ms.length → (s.entries.getD i dEntry).vertex = sumVerts (ms.take i)) ∧
      (∀ i, i + 1 < s.entries.length →
        (s.entries.getD i dEntry).node ≤ (s.entries.getD (i + 1) dEntry).node) := by
  obtain ⟨raw, hre, hrlen, hrv, hrb, hrchain, -, -, -⟩ :=
    runMeshes_ok_spec builder ms emptyBLAS s hok
  have hre2 : s.entries = raw.map entryOfTriple := by
    simpa [emptyBLAS] using hre
  have hlen : s.entries.length = raw.length := by rw [hre2]; simp
  refine ⟨by omega, ?_, ?_⟩
  · intro i hi
    have hiraw : i < raw.length := by omega
    rw [hre2, getD_map_of_lt entryOfTriple _ _ (0, 0, 0) i hiraw]
    have hmem := getD_mem_of_lt raw i hiraw (0, 0, 0)
    obtain ⟨-, -, -, -, -, b6⟩ := hrb _ hmem
    have hv := hrv i hi
    rw [show emptyBLAS.vertices.length = 0 from rfl, Nat.zero_add] at hv
    simp only [entryOfTriple]
    rw [Nat.mod_eq_of_lt (lt_of_le_of_lt b6 hverts)]
    exact hv
  · intro i hi1
    have hiraw : i + 1 < raw.length := by omega
    have hchain := chain_getD raw (0, 0, 0) hrchain i hiraw
    have m1 := getD_mem_of_lt raw i (by omega) (0, 0, 0)
    have m2 := getD_mem_of_lt raw (i + 1) hiraw (0, 0, 0)
    obtain ⟨-, u1, -, -, -, -⟩ := hrb _ m1
    obtain ⟨-, u2, -, -, -, -⟩ := hrb _ m2
    rw [hre2, getD_map_of_lt entryOfTriple _ _ (0, 0, 0) i (by omega),
      getD_map_of_lt entryOfTriple _ _ (0, 0, 0) (i + 1) hiraw]
    simp only [entryOfTriple]
    rw [Nat.mod_eq_of_lt (lt_of_le_of_lt u1 hnodes),
      Nat.mod_eq_of_lt (lt_of_le_of_lt u2 hnodes)]
    exact hchain.1

/-- Two successive one-triangle meshes, for the C5 witness. -/
def demoMeshes : List MeshInput := [.plain oneTriMesh, .plain oneTriMesh]

/-- Witness for C5: a concrete two-mesh run from the empty aggregator; the
second entry's vertex offset is the vertex count of the first mesh. -/
theorem add_mesh_offsets_witness :
    runMeshes idBuilder emptyBLAS demoMeshes =
        .ok (runMeshes idBuilder emptyBLAS demoMeshes).state ∧
      (runMeshes idBuilder emptyBLAS demoMeshes).state.nodes.length < U32 ∧
      (runMeshes idBuilder emptyBLAS demoMeshes).state.vertices.length < U32 ∧
      ((runMeshes idBuilder emptyBLAS demoMeshes).state.entries.getD 1 dEntry).vertex =
        sumVerts (demoMeshes.take 1) :=
  ⟨rfl, by decide, by decide,
    (add_mesh_offsets idBuilder demoMeshes _ rfl (by decide) (by decide)).2.1
      1 (by decide)⟩

/-! ## Claim C6: texcoord packing into the 4th components -/

theorem writeAll_getD (g : Vertex → α → Vertex) (dv : Vertex) (dx : α) :
    ∀ (verts : List Vertex) (xs : List α) (k : Nat), k < verts.length →
      (writeAll g verts xs).getD k dv =
        if k < xs.length then g (verts.getD k dv) (xs.getD k dx) else verts.getD k dv
  | [], xs, k, hk => by simp at hk
  | v :: vs, [], k, hk => by simp [writeAll]
  | v :: vs, x :: xs, 0, hk => by simp [writeAll]
  | v :: vs, x :: xs, k + 1, hk => by
    have ih := writeAll_getD g dv dx vs xs k (by simpa using hk)
    simp only [writeAll, List.zipWith_cons_cons, List.length_cons, List.drop_succ_cons,
      List.cons_append, List.getD_cons_succ] at ih ⊢
    rw [ih]
    simp [Nat.succ_lt_succ_iff]

theorem indexedWrites_getD (g : Vertex → α → Vertex) (src : List α) (d : α) (dv : Vertex) :
    ∀ (verts : List Vertex) (ixs : List Nat) (k : Nat), k < verts.length →
      (indexedWrites g src d verts ixs).1 = false →
      (indexedWrites g src d verts ixs).2.getD k dv =
        if k < ixs.length then g (verts.getD k dv) (src.getD (ixs.getD k 0) d)
        else verts.getD k dv
  | [], _, k, hk, _ => by simp at hk
  | v :: vs, [], k, hk, _ => by simp [indexedWrites]
  | v :: vs, ix :: ixs, 0, hk, hok => by
    by_cases h : ix < src.length
    · simp [indexedWrites, h]
    · simp [indexedWrites, h] at hok
  | v :: vs, ix :: ixs, k + 1, hk, hok => by
    by_cases h : ix < src.length
    · have hok2 : (indexedWrites g src d vs ixs).1 = false := by
        simpa [indexedWrites, h] using hok
      have ih := indexedWrites_getD g src d dv vs ixs k (by simpa using hk) hok2
      simp only [indexedWrites]
      rw [if_pos h]
      simp only [List.getD_cons_succ, List.length_cons]
      rw [ih]
      simp [Nat.succ_lt_succ_iff]
    · simp [indexedWrites, h] at hok

theorem getD_replicate_self (a : α) : ∀ (n k : Nat), (List.replicate n a).getD k a = a
  | 0, _ => by simp
  | n + 1, 0 => by simp [List.replicate_succ]
  | n + 1, k + 1 => by
    simp only [List.replicate_succ, List.getD_cons_succ]
    exact getD_replicate_self a n k

theorem normalsLen_some (mesh : MeshDescriptor) (ns : List Vec3)
    (h : mesh.normals = some ns) : normalsLen mesh = ns.length := by
  rcases mesh with ⟨pos, nsf, tsf⟩
  cases h
  rfl

theorem texcoordsLen_some (mesh : MeshDescriptor) (ts : List Vec2)
    (h : mesh.texcoords0 = some ts) : texcoordsLen mesh = ts.length := by
  rcases mesh with ⟨pos, nsf, tsf⟩
  cases h
  rfl

/-- A panic-free unindexed vertex run implies both attribute bounds. -/
theorem fillVertexRun_ok_bounds (mesh : MeshDescriptor)
    (hf : (fillVertexRun mesh).1 = false) :
    normalsLen mesh ≤ mesh.positions.length ∧
      texcoordsLen mesh ≤ mesh.positions.length := by
  have h2 := fillVertexRun_fst mesh
  rw [hf] at h2
  simp at h2
  omega

/-- A panic-free unindexed vertex run is the three passes composed. -/
theorem fillVertexRun_snd_ok (mesh : MeshDescriptor)
    (h1 : normalsLen mesh ≤ mesh.positions.length)
    (h2 : texcoordsLen mesh ≤ mesh.positions.length) :
    (fillVertexRun mesh).2 =
      uvPass (normPass (baseVerts mesh.positions) mesh.normals) mesh.texcoords0 := by
  simp only [fillVertexRun]
  rw [if_neg (by omega), if_neg (by omega)]

/-- A panic-free indexed vertex run: all three pass flags are false and the
run is the three passes composed. -/
theorem fillVertexRunIndexed_false_inv (desc : IndexedMeshDescriptor)
    (h : (fillVertexRunIndexed desc).1 = false) :
    (posPassIndexed desc).1 = false ∧
      (normPassIndexed (posPassIndexed desc).2 desc.indices desc.mesh.normals).1 = false ∧
      (uvPassIndexed
          (normPassIndexed (posPassIndexed desc).2 desc.indices desc.mesh.normals).2
          desc.indices desc.mesh.texcoords0).1 = false ∧
      (fillVertexRunIndexed desc).2 =
        (uvPassIndexed
          (normPassIndexed (posPassIndexed desc).2 desc.indices desc.mesh.normals).2
          desc.indices desc.mesh.texcoords0).2 := by
  by_cases h1 : (posPassIndexed desc).1
  · simp [fillVertexRunIndexed, h1] at h
  · by_cases h2 :
      (normPassIndexed (posPassIndexed desc).2 desc.indices desc.mesh.normals).1
    · simp [fillVertexRunIndexed, h1, h2] at h
    · by_cases h3 :
        (uvPassIndexed
          (normPassIndexed (posPassIndexed desc).2 desc.indices desc.mesh.normals).2
          desc.indices desc.mesh.texcoords0).1
      · simp [fillVertexRunIndexed, h1, h2, h3] at h
      · refine ⟨by simpa using h1, by simpa using h2, by simpa using h3, ?_⟩
        simp [fillVertexRunIndexed, h1, h2, h3]

/-- Indexed mesh with one position whose 4th component is 7, no normals, no
texcoords: the C6 failing input for the indexed variant. -/
def wCopyDesc : IndexedMeshDescriptor :=
  ⟨⟨[((0 : Rat), (0 : Rat), (0 : Rat), (7 : Rat))], none, none⟩, [0, 0, 0]⟩

/-- Counterexample to claim C6 at an explicit input: in the indexed variant
with no texcoords, the whole `[f32;4]` position is copied, so the produced
vertex keeps the caller's 4th component (7 here) instead of the zero the claim
requires. -/
theorem uv_zero_counterexample :
    (add_bvh_indexed idBuilder emptyBLAS wCopyDesc).isOk = true ∧
      ((add_bvh_indexed idBuilder emptyBLAS
          wCopyDesc).state.vertices.getD 0 Vertex.zeroed).position.2.2.2 = 7 ∧
      ((7 : Rat)) ≠ 0 :=
  ⟨by decide, by decide, by norm_num⟩

/-- Claim C6 as amended: with texcoords present, every covered vertex k gets
`position[3] = u` and `normal[3] = v` of its texcoord, in both variants (the
indexed variant resolving the texcoord through the index array).  Without
texcoords, the unindexed variant zeroes both 4th components, but the indexed
variant zeroes only `normal[3]`: `position[3]` is copied verbatim from the 4th
component of the referenced input position (zero only if the input is). -/
theorem add_mesh_uv_packing (builder : Builder) (s : BLASArray) :
    (∀ mesh s2 ts k, mesh.texcoords0 = some ts → add_bvh builder s mesh = .ok s2 →
      k < ts.length →
      (s2.vertices.getD (s.vertices.length + k) Vertex.zeroed).position.2.2.2 =
          (ts.getD k z2).1 ∧
        (s2.vertices.getD (s.vertices.length + k) Vertex.zeroed).normal.2.2.2 =
          (ts.getD k z2).2) ∧
      (∀ mesh s2 k, mesh.texcoords0 = none → add_bvh builder s mesh = .ok s2 →
        k < mesh.positions.length →
        (s2.vertices.getD (s.vertices.length + k) Vertex.zeroed).position.2.2.2 = 0 ∧
          (s2.vertices.getD (s.vertices.length + k) Vertex.zeroed).normal.2.2.2 = 0) ∧
      (∀ desc s2 ts k, desc.mesh.texcoords0 = some ts →
        add_bvh_indexed builder s desc = .ok s2 → k < desc.indices.length →
        (s2.vertices.getD (s.vertices.length + k) Vertex.zeroed).position.2.2.2 =
            (ts.getD (desc.indices.getD k 0) z2).1 ∧
          (s2.vertices.getD (s.vertices.length + k) Vertex.zeroed).normal.2.2.2 =
            (ts.getD (desc.indices.getD k 0) z2).2) ∧
      (∀ desc s2 k, desc.mesh.texcoords0 = none →
        add_bvh_indexed builder s desc = .ok s2 → k < desc.indices.length →
        (s2.vertices.getD (s.vertices.length + k) Vertex.zeroed).normal.2.2.2 = 0 ∧
          (s2.vertices.getD (s.vertices.length + k) Vertex.zeroed).position.2.2.2 =
            (desc.mesh.positions.getD (desc.indices.getD k 0) z4).2.2.2) := by
  refine ⟨?_, ?_, ?_, ?_⟩
  · intro mesh s2 ts k hts hok hk
    obtain ⟨hf, rfl⟩ := add_bvh_ok_inv builder s mesh s2 hok
    obtain ⟨h1, h2⟩ := fillVertexRun_ok_bounds mesh hf
    have hts2 : ts.length ≤ mesh.positions.length := by
      rw [texcoordsLen_some mesh ts hts] at h2
      exact h2
    have hkv : k < (normPass (baseVerts mesh.positions) mesh.normals).length := by
      rw [normPass_length, baseVerts_length]
      omega
    simp only [getD_append_add]
    rw [fillVertexRun_snd_ok mesh h1 h2, hts]
    simp only [uvPass]
    rw [writeAll_getD setUV Vertex.zeroed z2 _ ts k hkv, if_pos hk]
    constructor <;> simp [setUV]
  · intro mesh s2 k htsn hok hk
    obtain ⟨hf, rfl⟩ := add_bvh_ok_inv builder s mesh s2 hok
    obtain ⟨h1, h2⟩ := fillVertexRun_ok_bounds mesh hf
    simp only [getD_append_add]
    rw [fillVertexRun_snd_ok mesh h1 h2, htsn]
    simp only [uvPass]
    cases hns : mesh.normals with
    | none =>
      simp only [normPass, baseVerts]
      rw [getD_map_of_lt _ _ _ z4 k hk]
      constructor <;> simp [Vertex.zeroed]
    | some ns =>
      simp only [normPass]
      have hkb : k < (baseVerts mesh.positions).length := by
        rw [baseVerts_length]
        exact hk
      rw [writeAll_getD setNormal3 Vertex.zeroed z3 _ ns k hkb]
      by_cases hkn : k < ns.length
      · rw [if_pos hkn]
        simp only [baseVerts]
        rw [getD_map_of_lt _ _ _ z4 k hk]
        constructor <;> simp [setNormal3, Vertex.zeroed]
      · rw [if_neg hkn]
        simp only [baseVerts]
        rw [getD_map_of_lt _ _ _ z4 k hk]
        constructor <;> simp [Vertex.zeroed]
  · intro desc s2 ts k hts hok hk
    obtain ⟨hf, rfl⟩ := add_bvh_indexed_ok_inv builder s desc s2 hok
    obtain ⟨f1, f2, f3, hsnd⟩ := fillVertexRunIndexed_false_inv desc hf
    rw [hts] at f3 hsnd
    simp only [uvPassIndexed] at f3 hsnd
    have hkv : k <
        (normPassIndexed (posPassIndexed desc).2 desc.indices desc.mesh.normals).2.length := by
      rw [normPassIndexed_length, posPassIndexed_length]
      exact hk
    simp only [getD_append_add]
    rw [hsnd, indexedWrites_getD setUV ts z2 Vertex.zeroed _ desc.indices k hkv f3,
      if_pos hk]
    constructor <;> simp [setUV]
  · intro desc s2 k htsn hok hk
    obtain ⟨hf, rfl⟩ := add_bvh_indexed_ok_inv builder s desc s2 hok
    obtain ⟨f1, f2, f3, hsnd⟩ := fillVertexRunIndexed_false_inv desc hf
    rw [htsn] at f3 hsnd
    simp only [uvPassIndexed] at f3 hsnd
    have hkp : k < (posPassIndexed desc).2.length := by
      rw [posPassIndexed_length]
      exact hk
    have hppos := indexedWrites_getD setPos4 desc.mesh.positions z4 Vertex.zeroed
      (List.replicate desc.indices.length Vertex.zeroed) desc.indices k
      (by simpa using hk) (by simpa [posPassIndexed] using f1)
    rw [if_pos hk, getD_replicate_self] at hppos
    simp only [getD_append_add]
    rw [hsnd]
    cases hns : desc.mesh.normals with
    | none =>
      rw [hns] at f2
      simp only [normPassIndexed]
      have hpp : (posPassIndexed desc).2.getD k Vertex.zeroed =
          setPos4 Vertex.zeroed (desc.mesh.positions.getD (desc.indices.getD k 0) z4) := by
        simpa [posPassIndexed] using hppos
      rw [hpp]
      constructor <;> simp [setPos4, Vertex.zeroed]
    | some ns =>
      rw [hns] at f2
      simp only [normPassIndexed] at f2 ⊢
      rw [indexedWrites_getD setNormal3 ns z3 Vertex.zeroed _ desc.indices k hkp f2,
        if_pos hk]
      have hpp : (posPassIndexed desc).2.getD k Vertex.zeroed =
          setPos4 Vertex.zeroed (desc.mesh.positions.getD (desc.indices.getD k 0) z4) := by
        simpa [posPassIndexed] using hppos
      rw [hpp]
      constructor <;> simp [setNormal3, setPos4, Vertex.zeroed]

/-- Unindexed one-vertex mesh with texcoord `(3,4)`, for the C6 witness. -/
def uvMesh : MeshDescriptor :=
  ⟨[((0 : Rat), (0 : Rat), (0 : Rat), (0 : Rat))], none, some [((3 : Rat), (4 : Rat))]⟩

/-- Witness for the amended C6 theorem: the unindexed texcoord case at a
concrete mesh, showing `position[3] = 3` and `normal[3] = 4`. -/
theorem add_mesh_uv_packing_witness :
    uvMesh.texcoords0 = some [((3 : Rat), (4 : Rat))] ∧
      add_bvh idBuilder emptyBLAS uvMesh = .ok (add_bvh idBuilder emptyBLAS uvMesh).state ∧
      ((add_bvh idBuilder emptyBLAS uvMesh).state.vertices.getD
            (emptyBLAS.vertices.length + 0) Vertex.zeroed).position.2.2.2 =
          (([((3 : Rat), (4 : Rat))]).getD 0 z2).1 ∧
        ((add_bvh idBuilder emptyBLAS uvMesh).state.vertices.getD
            (emptyBLAS.vertices.length + 0) Vertex.zeroed).normal.2.2.2 =
          (([((3 : Rat), (4 : Rat))]).getD 0 z2).2 :=
  ⟨rfl, rfl,
    (add_mesh_uv_packing idBuilder emptyBLAS).1 uvMesh _ [((3 : Rat), (4 : Rat))] 0
      rfl rfl (by decide)⟩

end Albedo
